import Mathlib

/-!
Formal model of the "détachements" request-management backend
(SebastienDelgado/detachements-backend). The repository contains several
iterations of the same Express server; the definitions below are shallow
embeddings of the functions and route handlers the verified claims refer
to. Each definition is annotated with the source file and line range it
is translated from.
-/

/-- Half-day markers `FULL | AM | PM` (`start_period` / `end_period`).
The JavaScript `computeDays` normalizes its marker arguments with
`(sp || "FULL").toUpperCase()` and then only compares them with the
string literals `"AM"`, `"PM"`, `"FULL"`; any other string takes none of
the special branches, which yields exactly the `FULL` results in every
branch, so marker strings are modelled by this three-value type. -/
inductive Period where
  | FULL
  | AM
  | PM
deriving DecidableEq

/-- Request lifecycle status: `pending | sent | refused | cancelled`
(the only values the handlers ever store). -/
inductive Status where
  | pending
  | sent
  | refused
  | cancelled
deriving DecidableEq

/-- Observable side effects of a route handler, listed in program order:
`save` is the store write, `respond` the HTTP response, `mailAttempt` a
call into the mail transport. -/
inductive Ev where
  | save
  | respond
  | mailAttempt
deriving DecidableEq

/-- JavaScript `x || ""` on an optional string field: `undefined`, `null`
and `""` are all falsy, so the result is `""` exactly when the field is
absent or empty. -/
def jsStr (o : Option String) : String :=
  match o with
  | some s => s
  | none => ""

/-- JavaScript `a || b` for two strings: `a` when nonempty, else `b`. -/
def jsOr (a b : String) : String :=
  if a = "" then b else a

/-- JavaScript `s.trim()`: drops leading and trailing whitespace
characters (on the character data, so that concrete values evaluate in
the kernel). `Char.isWhitespace` covers space, tab, CR and LF; the other
code points JavaScript `trim` removes never reach a `trim` call in the
modelled paths (`cleanEmail` strips them beforehand, and date/period
fields are compared against ASCII literals). -/
def jsTrim (s : String) : String :=
  String.mk (((s.data.dropWhile Char.isWhitespace).reverse.dropWhile
    Char.isWhitespace).reverse)

/-- Lexicographic comparison of character lists by code point. -/
def listLtChars : List Char → List Char → Bool
  | [], [] => false
  | [], _ :: _ => true
  | _ :: _, [] => false
  | a :: as, b :: bs =>
    if a.toNat < b.toNat then true
    else if b.toNat < a.toNat then false
    else listLtChars as bs

/-- JavaScript `a < b` on strings: lexicographic by code unit, which on
the ASCII strings compared here agrees with code-point order. -/
def jsStrLt (a b : String) : Bool :=
  listLtChars a.data b.data

/-- JavaScript `s.toUpperCase()` (on the character data, so that
concrete values evaluate in the kernel); the results are only ever
compared against ASCII literals. -/
def jsToUpper (s : String) : String :=
  String.mk (s.data.map Char.toUpper)

/-- JavaScript `x || null` on an optional string: `null` when the field
is absent or the empty string. -/
def jsTruthyOpt (o : Option String) : Option String :=
  match o with
  | some s => if s = "" then none else some s
  | none => none

/-- Numeric value of a decimal digit character. -/
def digitVal (c : Char) : Nat :=
  c.toNat - 48

/-- Gregorian leap-year predicate. -/
def isLeap (y : Nat) : Bool :=
  (y % 4 == 0 && y % 100 != 0) || y % 400 == 0

/-- Number of days in month `m` of year `y`. -/
def daysInMonth (y m : Nat) : Nat :=
  if m = 2 then (if isLeap y then 29 else 28)
  else if m = 4 ∨ m = 6 ∨ m = 9 ∨ m = 11 then 30
  else 31

/-- Day number (days since 1970-01-01) of the Gregorian date `y-m-d`.
Standard civil-calendar conversion; `/` and `%` on `ℤ` are Euclidean, so
`y2 / 400` is floor division for the positive divisor, as the algorithm
requires. `daysFromCivil 1970 1 1 = 0` and `daysFromCivil 2024 3 1 =
19783` hold by evaluation. -/
def daysFromCivil (y : ℤ) (m d : Nat) : ℤ :=
  let y2 := if m ≤ 2 then y - 1 else y
  let era := y2 / 400
  let yoe := y2 - era * 400
  let mp : ℤ := ((m : ℤ) + 9) % 12
  let doy := (153 * mp + 2) / 5 + (d : ℤ) - 1
  let doe := yoe * 365 + yoe / 4 - yoe / 100 + doy
  era * 146097 + doe - 719468

/-- Result of `new Date(s + "T00:00:00Z").getTime() / 86400000` on the
canonical `YYYY-MM-DD` grammar: the day number for an in-range date,
`none` (`NaN`) for out-of-range components or any other shape. (The
engine also admits a few extended ISO forms; those never arise from this
application's canonical dates and are mapped to `none`, the domain the
claims quantify over being the canonical strings.) -/
def parseISO (s : String) : Option ℤ :=
  match s.data with
  | [y1, y2, y3, y4, s1, m1, m2, s2, d1, d2] =>
    if (s1 == '-') && (s2 == '-') && y1.isDigit && y2.isDigit && y3.isDigit &&
        y4.isDigit && m1.isDigit && m2.isDigit && d1.isDigit && d2.isDigit then
      let y := 1000 * digitVal y1 + 100 * digitVal y2 + 10 * digitVal y3 + digitVal y4
      let m := 10 * digitVal m1 + digitVal m2
      let d := 10 * digitVal d1 + digitVal d2
      if 1 ≤ m ∧ m ≤ 12 ∧ 1 ≤ d ∧ d ≤ daysInMonth y m then
        some (daysFromCivil (y : ℤ) m d)
      else none
    else none
  | _ => none

/-- `computeDays` as in `server.js` lines 425-445. A falsy (empty)
`dFrom` gives 0; a missing `dTo` defaults to `dFrom`; an unparseable
date gives 0 through the `isNaN` guard at line 430. `base =
floor((to - from) / 86400000) + 1` is exact because both stamps are UTC
midnights. The single-day test is the string comparison
`dFrom === dTo`, as in the source. The copies in `part_000` lines
533-551 and `part_001` lines 63-81 differ twice: they return 0 when
`dTo` is missing instead of defaulting it, and they have NO `isNaN`
guard, so a nonempty unparseable date gives them `NaN` — or a
marker-table value when the two strings are equal; that copy is
embedded separately as `Part001.computeDays`. -/
def computeDays (dFrom dTo : String) (sp ep : Period) : ℚ :=
  if dFrom = "" then 0
  else
    let dTo2 := if dTo = "" then dFrom else dTo
    match parseISO dFrom, parseISO dTo2 with
    | some f, some t =>
      let base : ℤ := (t - f) + 1
      if dFrom = dTo2 then
        if sp = Period.FULL ∨ ep = Period.FULL then 1
        else if sp = Period.AM ∧ ep = Period.PM then 1
        else if sp = Period.AM ∧ ep = Period.AM then 1 / 2
        else if sp = Period.PM ∧ ep = Period.PM then 1 / 2
        else 1
      else
        let total : ℚ := (base : ℚ)
        let total := if sp = Period.PM then total - 1 / 2 else total
        let total := if ep = Period.AM then total - 1 / 2 else total
        total
    | _, _ => 0

/-- Abstraction map from a marker string (already uppercased at every
call site, or normalized inside `computeDays` itself) to `Period`; any
string other than `"AM"` / `"PM"` behaves exactly like `"FULL"` in
`computeDays`, see `Period`. -/
def periodOfString (s : String) : Period :=
  if s = "AM" then Period.AM
  else if s = "PM" then Period.PM
  else Period.FULL

/-- Test for the anchored pattern of one regular expression
`^\d{4}-\d{2}-\d{2}$`, used by `normalizeDate` and by the `part_001`
creation route's date-format check. -/
def isISOChars (l : List Char) : Bool :=
  match l with
  | [a, b, c, d, e, f, g, h, i, j] =>
    a.isDigit && b.isDigit && c.isDigit && d.isDigit && (e == '-') &&
    f.isDigit && g.isDigit && (h == '-') && i.isDigit && j.isDigit
  | _ => false

/-- Match against `^(\d{2})\/(\d{2})\/(\d{4})$` and, on success, the
rewritten character list `yyyy-mm-dd` built by `normalizeDate`. -/
def frMatch (l : List Char) : Option (List Char) :=
  match l with
  | [d1, d2, s1, m1, m2, s2, y1, y2, y3, y4] =>
    if (s1 == '/') && (s2 == '/') && d1.isDigit && d2.isDigit && m1.isDigit &&
        m2.isDigit && y1.isDigit && y2.isDigit && y3.isDigit && y4.isDigit then
      some [y1, y2, y3, y4, '-', m1, m2, '-', d1, d2]
    else none
  | _ => none

/-- `normalizeDate` (`part_001` lines 50-61, identical in `part_000`
lines 518-527 and `part_002` lines 35-46): falsy input (the empty
string; `s.data = []` is `s = ""`) is returned as given, a string already
matching `YYYY-MM-DD` is returned unchanged, a `DD/MM/YYYY` string is
rewritten to `YYYY-MM-DD`, anything else is returned as given. -/
def normalizeDate (s : String) : String :=
  if s.data = [] then s
  else if isISOChars s.data then s
  else
    match frMatch s.data with
    | some r => String.mk r
    | none => s

/-- `isEmail` (`part_000` line 552, identical in `part_001` lines 83-85):
`/.+@.+\..+/.test(x)` is an unanchored search, so it succeeds exactly
when the string contains a `@` at some index `i` and a `.` at some index
`j ≥ i + 2` with at least one character after the `.`, such that the
character right before the `@`, every character strictly between `@` and
`.`, and the character right after the `.` are matched by the pattern
`.` (anything but a line terminator). The `typeof x === "string"` guard
always holds in this model. -/
def isEmail (s : String) : Bool :=
  let l := s.data
  let dot (c : Char) : Bool := !(c == '\n' || c == '\r' || c.toNat = 0x2028 || c.toNat = 0x2029)
  (List.range l.length).any fun i =>
    (List.range l.length).any fun j =>
      decide (1 ≤ i) && decide (i + 2 ≤ j) && decide (j + 2 ≤ l.length) &&
      (l.getD i ' ' == '@') && (l.getD j ' ' == '.') &&
      dot (l.getD (i - 1) ' ') && dot (l.getD (j + 1) ' ') &&
      (List.range (j - i - 1)).all fun k => dot (l.getD (i + 1 + k) ' ')

/-- Raw JSON submission body. Request bodies are open objects; each
creation route reads the keys it uses, and `none` models an absent key.
The snake_case fallback keys read by `normalizeRequestPayload`
(`body.full_name` etc., the code takes the first truthy of the two) are
folded into the camelCase field. -/
structure Body where
  fullName : Option String := none
  applicantEmail : Option String := none
  entity : Option String := none
  dateFrom : Option String := none
  dateTo : Option String := none
  startPeriod : Option String := none
  endPeriod : Option String := none
  place : Option String := none
  type : Option String := none
  managerEmail : Option String := none
  hrEmail : Option String := none
  comment : Option String := none
  days : Option ℚ := none
deriving DecidableEq

/-!
`server.js`, first document (Mongo + JWT + Mailtrap): the
validate/refuse/cancel handlers at lines 240-290.
-/

namespace MongoV1

/-- Stored request (`server.js` `RequestSchema`, lines 57-77), restricted
to the fields the three transition handlers read or write; the schema has
no `validated_at` / `decision_at` fields, and `refuse_reason` /
`cancel_reason` are absent (`none`) until set. -/
structure Rec where
  status : Status
  refuse_reason : Option String
  cancel_reason : Option String
deriving DecidableEq

/-- Responses of this variant: `{ ok: true }` (the body never carries an
`already` field) or 404 `{ error: "Not found" }`. -/
inductive Resp where
  | ok
  | notFound
deriving DecidableEq

/-- POST `/api/requests/:id/validate` (`server.js` lines 240-272): looks
up the record (404 when absent), unconditionally sets `status = "sent"`
and saves, responds `{ ok: true }`, then attempts the notification mail
in a `setImmediate` background task; `sendMail` catches transport errors
itself, so nothing in the outcome depends on `mailOk`. -/
def validate (r : Option Rec) (_mailOk : Bool) : Option Rec × Resp × List Ev :=
  match r with
  | none => (none, Resp.notFound, [])
  | some rec =>
    (some { rec with status := Status.sent }, Resp.ok,
      [Ev.save, Ev.respond, Ev.mailAttempt])

/-- POST `/api/requests/:id/refuse` (`server.js` lines 275-282): no
status check and no mail; sets `status = "refused"` and
`refuse_reason = (req.body && req.body.reason) || ""`. -/
def refuse (r : Option Rec) (reason : Option String) : Option Rec × Resp :=
  match r with
  | none => (none, Resp.notFound)
  | some rec =>
    (some { rec with status := Status.refused, refuse_reason := some (jsStr reason) },
      Resp.ok)

/-- POST `/api/requests/:id/cancel` (`server.js` lines 283-290): same
shape as `refuse` with `status = "cancelled"` and `cancel_reason`. -/
def cancel (r : Option Rec) (reason : Option String) : Option Rec × Resp :=
  match r with
  | none => (none, Resp.notFound)
  | some rec =>
    (some { rec with status := Status.cancelled, cancel_reason := some (jsStr reason) },
      Resp.ok)

end MongoV1

/-!
`server.js`, second document (in-memory `DB.requests` map): payload
validation at lines 398-496, creation at lines 532-553, lifecycle
handlers at lines 568-711.
-/

namespace ServerJsMem

/-- Character classes removed by `cleanEmail` (`server.js` lines
398-403): C0/C1 control characters and the listed Unicode space
characters. -/
def isStrippedChar (c : Char) : Bool :=
  decide (c.toNat ≤ 0x1F ∨ (0x7F ≤ c.toNat ∧ c.toNat ≤ 0x9F) ∨
    c.toNat = 0xA0 ∨ c.toNat = 0x1680 ∨ (0x2000 ≤ c.toNat ∧ c.toNat ≤ 0x200D) ∨
    c.toNat = 0x202F ∨ c.toNat = 0x205F ∨ c.toNat = 0x3000 ∨ c.toNat = 0xFEFF)

/-- `cleanEmail` (`server.js` lines 398-403): strips the characters
above, then calls `trim`; after the strip, of the characters JavaScript
`trim` removes only the ASCII space can remain, so `jsTrim` is a
faithful model of the final `.trim()`. -/
def cleanEmail (s : String) : String :=
  jsTrim (String.mk (s.data.filter (fun c => !isStrippedChar c)))

/-- Characters of the local-part class of the `isEmail` pattern
(`server.js` line 406): `A-Za-z0-9` plus the listed punctuation
(apostrophe `0x27`, backtick `0x60` and braces `0x7b`/`0x7d` written by
code point). -/
def isLocalChar (c : Char) : Bool :=
  c.isAlphanum || c == '.' || c == '!' || c == '#' || c == '$' || c == '%' ||
  c == '&' || c.toNat = 0x27 || c == '*' || c == '+' || c == '/' || c == '=' ||
  c == '?' || c == '^' || c == '_' || c.toNat = 0x60 || c.toNat = 0x7b ||
  c == '|' || c.toNat = 0x7d || c == '~' || c == '-'

/-- Characters of the domain-label class `[A-Za-z0-9-]`. -/
def isDomChar (c : Char) : Bool :=
  c.isAlphanum || c == '-'

/-- Split a character list at every occurrence of `sep` (the segments of
a split keep their order, empty segments included). -/
def splitOnChar (sep : Char) : List Char → List (List Char)
  | [] => [[]]
  | c :: rest =>
    match splitOnChar sep rest with
    | [] => [[c]]
    | h :: t => if c == sep then [] :: h :: t else (c :: h) :: t

/-- `isEmail` (`server.js` lines 404-408): `re.test(cleanEmail(s))` for
the anchored pattern `local+@label(.label)+`. Neither character class
contains `@`, so a match forces exactly one `@`; the domain is one or
more dot-separated nonempty labels, at least two of them. -/
def isEmail (s : String) : Bool :=
  let x := cleanEmail s
  match splitOnChar '@' x.data with
  | [loc, dom] =>
    !loc.isEmpty && loc.all isLocalChar &&
      (let labs := splitOnChar '.' dom
       decide (2 ≤ labs.length) && labs.all fun lab => !lab.isEmpty && lab.all isDomChar)
  | _ => false

/-- The distinct validation throws of `normalizeRequestPayload` and the
reason check of `refuse`/`cancel`; each constructor stands for one
French-language message string of the source. -/
inductive VErr where
  | applicantEmail
  | managerEmail
  | hrEmail
  | dateFromMissing
  | dateOrder
  | sameDayPmAm
deriving DecidableEq

/-- `mustBeEmail` (`server.js` lines 409-413): cleans the field and
throws the labelled error unless the cleaned value passes `isEmail`
(which cleans again, idempotently). -/
def mustBeEmail (lbl : VErr) (o : Option String) : Except VErr String :=
  let v := cleanEmail (jsStr o)
  if isEmail v then Except.ok v else Except.error lbl

/-- Canonical payload produced by `normalizeRequestPayload`
(`server.js` lines 481-495). -/
structure Payload where
  full_name : String
  applicant_email : String
  entity : String
  date_from : String
  date_to : String
  start_period : String
  end_period : String
  place : String
  type : String
  manager_email : String
  hr_email : String
  comment : String
  days : ℚ
deriving DecidableEq

/-- Normalized `dateFrom` of a submission:
`(body.dateFrom || body.date_from || "").toString().trim()`
(`server.js` line 461). -/
def normDateFrom (body : Body) : String :=
  jsTrim (jsStr body.dateFrom)

/-- Normalized `dateTo`:
`(body.dateTo || body.date_to || dateFrom || "").toString().trim()`
(`server.js` line 462). -/
def normDateTo (body : Body) : String :=
  jsTrim (jsOr (jsStr body.dateTo) (normDateFrom body))

/-- Normalized `startPeriod`:
`(body.startPeriod || body.start_period || "FULL").toString().toUpperCase()`
(`server.js` line 463). -/
def normStartPeriod (body : Body) : String :=
  jsToUpper (jsOr (jsStr body.startPeriod) "FULL")

/-- Normalized `endPeriod` (`server.js` line 464). -/
def normEndPeriod (body : Body) : String :=
  jsToUpper (jsOr (jsStr body.endPeriod) "FULL")

/-- `normalizeRequestPayload` (`server.js` lines 456-496), with the
source's evaluation order: text fields are `(x || "").toString().trim()`,
the three email fields go through `mustBeEmail` (which throws), then the
date guards run — a missing `dateFrom`, a truthy `dateTo` with
`dateTo < dateFrom` (JavaScript string comparison), or a same-day
`PM`/`AM` pair each throw — and finally `days` is
`Number(body.days ?? computeDays(...)) || 0` (the body value when the
key is present, else the computed value; `|| 0` is the identity on the
numeric model). -/
def normalizeRequestPayload (body : Body) : Except VErr Payload := do
  let full_name := jsTrim (jsStr body.fullName)
  let applicant_email ← mustBeEmail VErr.applicantEmail body.applicantEmail
  let entity := jsTrim (jsStr body.entity)
  let dateFrom := normDateFrom body
  let dateTo := normDateTo body
  let startPeriod := normStartPeriod body
  let endPeriod := normEndPeriod body
  let place := jsTrim (jsStr body.place)
  let type := jsTrim (jsStr body.type)
  let manager_email ← mustBeEmail VErr.managerEmail body.managerEmail
  let hr_email ← mustBeEmail VErr.hrEmail body.hrEmail
  let comment := jsTrim (jsStr body.comment)
  if dateFrom = "" then throw VErr.dateFromMissing
  if dateTo ≠ "" ∧ jsStrLt dateTo dateFrom = true then throw VErr.dateOrder
  if dateFrom = dateTo ∧ startPeriod = "PM" ∧ endPeriod = "AM" then throw VErr.sameDayPmAm
  let days := match body.days with
    | some q => q
    | none => computeDays dateFrom dateTo (periodOfString startPeriod) (periodOfString endPeriod)
  return ⟨full_name, applicant_email, entity, dateFrom, dateTo, startPeriod,
    endPeriod, place, type, manager_email, hr_email, comment, days⟩

/-- Stored record (`server.js` lines 538-546): `status: "pending"`, the
three terminal fields `null`, then the payload fields (`id` and
`created_at` are abstracted away). -/
structure RecFull where
  status : Status
  validated_at : Option Nat
  decision_at : Option Nat
  decision_reason : Option String
  payload : Payload
deriving DecidableEq

/-- Fresh record inserted by POST `/api/requests`. -/
def freshRec (p : Payload) : RecFull :=
  ⟨Status.pending, none, none, none, p⟩

/-- Creation responses: `{ ok: true, id }` or 400 with the thrown
message. -/
inductive PostResp where
  | created
  | badRequest (e : VErr)
deriving DecidableEq

/-- POST `/api/requests` (`server.js` lines 532-553): a validation throw
is caught and answered with 400, storing nothing; otherwise the fresh
record is inserted into `DB.requests`. -/
def postRequests (store : List RecFull) (body : Body) : List RecFull × PostResp :=
  match normalizeRequestPayload body with
  | Except.error e => (store, PostResp.badRequest e)
  | Except.ok p => (store ++ [freshRec p], PostResp.created)

/-- Lifecycle responses of this variant. -/
inductive Resp where
  | ok
  | notFound
  | reasonRequired
  | mailError
deriving DecidableEq

/-- POST `/api/requests/:id/validate` (`server.js` lines 568-627): looks
up the record (404 when absent), `await`s the notification mail FIRST,
and only on a successful send sets `status = "sent"` and
`validated_at = now` and responds `{ ok: true, ... }`; a send failure is
answered with 500 and the record is left untouched. -/
def validate (r : Option RecFull) (mailOk : Bool) (now : Nat) :
    Option RecFull × Resp × List Ev :=
  match r with
  | none => (none, Resp.notFound, [])
  | some rec =>
    if mailOk then
      (some { rec with status := Status.sent, validated_at := some now },
        Resp.ok, [Ev.mailAttempt, Ev.save, Ev.respond])
    else
      (some rec, Resp.mailError, [Ev.mailAttempt, Ev.respond])

/-- POST `/api/requests/:id/refuse` (`server.js` lines 630-669): 404 when
absent; `reason = (req.body && req.body.reason || "").toString().trim()`
must be nonempty, else 400 `{ error: "Motif requis" }` with the record
untouched; then the mail to the applicant is `await`ed and, on success,
`status = "refused"`, `decision_at = now`, `decision_reason = reason`
are set; a send failure is answered with 500, record untouched. There is
no check of the current status. -/
def refuse (r : Option RecFull) (reason : Option String) (mailOk : Bool) (now : Nat) :
    Option RecFull × Resp :=
  match r with
  | none => (none, Resp.notFound)
  | some rec =>
    let reasonT := jsTrim (jsStr reason)
    if reasonT = "" then (some rec, Resp.reasonRequired)
    else if mailOk then
      (some { rec with
          status := Status.refused, decision_at := some now,
          decision_reason := some reasonT },
        Resp.ok)
    else (some rec, Resp.mailError)

/-- POST `/api/requests/:id/cancel` (`server.js` lines 672-711): same
shape as `refuse` with `status = "cancelled"`. -/
def cancel (r : Option RecFull) (reason : Option String) (mailOk : Bool) (now : Nat) :
    Option RecFull × Resp :=
  match r with
  | none => (none, Resp.notFound)
  | some rec =>
    let reasonT := jsTrim (jsStr reason)
    if reasonT = "" then (some rec, Resp.reasonRequired)
    else if mailOk then
      (some { rec with
          status := Status.cancelled, decision_at := some now,
          decision_reason := some reasonT },
        Resp.ok)
    else (some rec, Resp.mailError)

/-- Spec §3 invariant on a stored record: never both terminal
timestamps, and the status value determines which of `validated_at` /
`decision_at` + `decision_reason` are populated. -/
def inv (r : RecFull) : Prop :=
  ¬(r.validated_at.isSome = true ∧ r.decision_at.isSome = true) ∧
  (r.status = Status.pending →
    r.validated_at = none ∧ r.decision_at = none ∧ r.decision_reason = none) ∧
  (r.status = Status.sent →
    r.validated_at.isSome = true ∧ r.decision_at = none ∧ r.decision_reason = none) ∧
  ((r.status = Status.refused ∨ r.status = Status.cancelled) →
    r.validated_at = none ∧ r.decision_at.isSome = true ∧ r.decision_reason.isSome = true)

instance (r : RecFull) : Decidable (inv r) := by
  unfold inv; infer_instance

/-- Arbitrary concrete payload used by witnesses and counterexamples. -/
def examplePayload : Payload :=
  ⟨"Alice", "a@b.cd", "E", "2024-03-01", "2024-03-05", "FULL", "FULL",
    "P", "21B", "m@x.yy", "h@x.yy", "", 5⟩

end ServerJsMem

/-!
`part_000`, second document (in-memory `REQUESTS` array with CSV
export): validate at lines 726-789, refuse at lines 827-855.
-/

namespace Part000Mem

/-- Stored record of this variant (creation at `part_000` lines
643-665), restricted to the fields its validate/refuse control flow
reads or writes; the remaining payload fields only feed the mail
body. -/
structure Rec where
  status : Status
  validated_at : Option Nat
  decision_at : Option Nat
  decision_reason : Option String
  applicant_email : String
deriving DecidableEq

/-- Responses: `{ ok: true, messageId }`, `{ ok: true, already: true }`,
404, 400 (missing/invalid applicant email) or 500 (send failure). -/
inductive Resp where
  | ok
  | okAlready
  | notFound
  | badEmail
  | mailError
deriving DecidableEq

/-- POST `/api/requests/:id/validate` (`part_000` lines 726-789): 404
when absent; when the record is already `sent`, answers
`{ ok: true, already: true }` without touching the record or the mailer;
otherwise `await`s the mail and, on success, sets `status = "sent"` and
`validated_at = now`; a send failure is answered with 500, record
untouched. -/
def validate (r : Option Rec) (mailOk : Bool) (now : Nat) :
    Option Rec × Resp × List Ev :=
  match r with
  | none => (none, Resp.notFound, [])
  | some rec =>
    if rec.status = Status.sent then (some rec, Resp.okAlready, [])
    else if mailOk then
      (some { rec with status := Status.sent, validated_at := some now },
        Resp.ok, [Ev.mailAttempt, Ev.save, Ev.respond])
    else
      (some rec, Resp.mailError, [Ev.mailAttempt, Ev.respond])

/-- POST `/api/requests/:id/refuse` (`part_000` lines 827-855): 404 when
absent; 400 when the applicant email is missing or fails `isEmail`; then
the decision mail is `await`ed and, on success, `status = "refused"`,
`decision_reason = reason || null`, `decision_at = now` are set; a send
failure is answered with 500, record untouched. The `reason` is
optional and the current status is never checked. -/
def refuse (r : Option Rec) (reason : Option String) (mailOk : Bool) (now : Nat) :
    Option Rec × Resp :=
  match r with
  | none => (none, Resp.notFound)
  | some rec =>
    if rec.applicant_email = "" ∨ isEmail rec.applicant_email = false then
      (some rec, Resp.badEmail)
    else if mailOk then
      (some { rec with
          status := Status.refused, decision_reason := jsTruthyOpt reason,
          decision_at := some now },
        Resp.ok)
    else (some rec, Resp.mailError)

end Part000Mem

/-!
`part_001` (in-memory `REQUESTS` array, validate-only lifecycle):
creation at lines 142-194.
-/

namespace Part001

/-- Stored item (`part_001` lines 170-187). -/
structure Item where
  full_name : String
  entity : String
  date_from : String
  date_to : String
  start_period : String
  end_period : String
  place : String
  type : String
  manager_email : String
  hr_email : String
  days : ℚ
  comment : Option String
  status : Status
  validated_at : Option Nat
deriving DecidableEq

/-- Creation responses (`part_001` lines 150-193): `{ id, days,
status: "pending" }` on success, or the 400 with the respective
message. -/
inductive Resp where
  | created (days : ℚ)
  | errRequired
  | errDateFrom
  | errDateFormat
  | errStartPeriod
  | errEndPeriod
  | errType
  | errManagerEmail
  | errHrEmail
deriving DecidableEq

/-- POST `/api/requests` (`part_001` lines 142-194): normalizes both
dates with `normalizeDate` (a falsy `dateTo` defaults to the normalized
`dateFrom`), requires `fullName`/`entity`/`place` truthy, `dateFrom`
truthy, both dates matching `^\d{4}-\d{2}-\d{2}$`, periods in
`{AM, PM, FULL}` after `(x || "FULL").toUpperCase()`, type in
`{21B, 21C}` after `(x || "21B").toUpperCase()`, and both contact
emails passing `isEmail`; then it unshifts the item with
`days = computeDays(...)`. There is NO date-order check and NO same-day
`PM`/`AM` check. (The stored `days` here reuses the embedded `server.js`
`computeDays`; this file's own copy, `Part001.computeDays` below, agrees
with it on in-range dates but yields `NaN` instead of 0 on a
format-valid out-of-range date such as `2024-02-31`, which this route's
format regex admits.) -/
def postRequests (reqs : List Item) (body : Body) : List Item × Resp :=
  let dFrom := normalizeDate (jsStr body.dateFrom)
  let dTo := normalizeDate (jsOr (jsStr body.dateTo) dFrom)
  if jsStr body.fullName = "" ∨ jsStr body.entity = "" ∨ jsStr body.place = "" then
    (reqs, Resp.errRequired)
  else if dFrom = "" then (reqs, Resp.errDateFrom)
  else if isISOChars dFrom.data = false ∨ isISOChars dTo.data = false then
    (reqs, Resp.errDateFormat)
  else
    let startPeriod := jsToUpper (jsOr (jsStr body.startPeriod) "FULL")
    let endPeriod := jsToUpper (jsOr (jsStr body.endPeriod) "FULL")
    if ¬(startPeriod = "AM" ∨ startPeriod = "PM" ∨ startPeriod = "FULL") then
      (reqs, Resp.errStartPeriod)
    else if ¬(endPeriod = "AM" ∨ endPeriod = "PM" ∨ endPeriod = "FULL") then
      (reqs, Resp.errEndPeriod)
    else
      let type := jsToUpper (jsOr (jsStr body.type) "21B")
      if ¬(type = "21B" ∨ type = "21C") then (reqs, Resp.errType)
      else if isEmail (jsStr body.managerEmail) = false then (reqs, Resp.errManagerEmail)
      else if isEmail (jsStr body.hrEmail) = false then (reqs, Resp.errHrEmail)
      else
        let days := computeDays dFrom dTo (periodOfString startPeriod) (periodOfString endPeriod)
        let item : Item :=
          ⟨jsTrim (jsStr body.fullName), jsStr body.entity, dFrom, dTo,
            startPeriod, endPeriod, jsStr body.place, type,
            jsStr body.managerEmail, jsStr body.hrEmail, days,
            jsTruthyOpt body.comment, Status.pending, none⟩
        (item :: reqs, Resp.created days)

/-- `computeDays` as in `part_001` lines 63-81 (identical copy in
`part_000` lines 533-551): returns 0 when either date string is missing,
but — unlike the `server.js` copy — it has NO `isNaN` guard. `baseDays`
is `NaN` (modelled as `none`) when either date fails to parse, and `NaN`
propagates through the half-day subtractions, so for two distinct
strings an unparseable date yields `NaN`; when the two strings are equal
the marker table answers 1 or 0.5 before `baseDays` is ever used. The
result type `Option ℚ` uses `none` for `NaN`. (Defined after
`postRequests`, whose `days` value reuses the shared embedded
`computeDays`; see its comment.) -/
def computeDays (dFrom dTo : String) (sp ep : Period) : Option ℚ :=
  if dFrom = "" ∨ dTo = "" then some 0
  else
    let baseDays : Option ℤ :=
      match parseISO dFrom, parseISO dTo with
      | some f, some t => some ((t - f) + 1)
      | _, _ => none
    if dFrom = dTo then
      some (if sp = Period.FULL ∨ ep = Period.FULL then 1
        else if sp = Period.AM ∧ ep = Period.PM then 1
        else if sp = Period.AM ∧ ep = Period.AM then 1 / 2
        else if sp = Period.PM ∧ ep = Period.PM then 1 / 2
        else 1)
    else
      match baseDays with
      | some base =>
        let total : ℚ := (base : ℚ)
        let total := if sp = Period.PM then total - 1 / 2 else total
        let total := if ep = Period.AM then total - 1 / 2 else total
        some total
      | none => none

end Part001

/-!
`part_000`, third document (Mongo + JWT + SMTP with refuse/cancel
mails): refuse at lines 1173-1200.
-/

namespace Part000Mongo2

/-- Stored request of this variant (`part_000` `RequestSchema`, lines
959-979), restricted to the fields the refuse handler reads or
writes. -/
structure Rec where
  status : Status
  refuse_reason : Option String
deriving DecidableEq

inductive Resp where
  | ok
  | notFound
deriving DecidableEq

/-- POST `/api/requests/:id/refuse` (`part_000` lines 1173-1200): 404
when absent; otherwise it immediately sets `status = "refused"` and
`refuse_reason = (req.body && req.body.reason) || ""` and saves, then
tries the decision mail (errors are only logged), answering
`{ ok: true }` always. No status check, no reason requirement. -/
def refuse (r : Option Rec) (reason : Option String) : Option Rec × Resp :=
  match r with
  | none => (none, Resp.notFound)
  | some rec =>
    (some { rec with status := Status.refused, refuse_reason := some (jsStr reason) },
      Resp.ok)

end Part000Mongo2

/-!
Helper lemmas.
-/

theorem frMatch_isISO {l r : List Char} (h : frMatch l = some r) :
    isISOChars r = true ∧ r ≠ [] := by
  unfold frMatch at h
  split at h
  · rename_i d1 d2 s1 m1 m2 s2 y1 y2 y3 y4
    split at h
    · rename_i hcond
      simp only [Bool.and_eq_true] at hcond
      obtain ⟨⟨⟨⟨⟨⟨⟨⟨⟨hs1, hs2⟩, h1⟩, h2⟩, h3⟩, h4⟩, h5⟩, h6⟩, h7⟩, h8⟩ := hcond
      obtain rfl : [y1, y2, y3, y4, '-', m1, m2, '-', d1, d2] = r := by
        injection h
      refine ⟨?_, by simp⟩
      simp [isISOChars, h1, h2, h3, h4, h5, h6, h7, h8]
    · exact absurd h (by simp)
  · exact absurd h (by simp)

theorem normalizeDate_of_iso {s : String} (h : isISOChars s.data = true) :
    normalizeDate s = s := by
  have hne : ¬ s.data = [] := by
    intro he
    rw [he] at h
    exact absurd h (by decide)
  simp [normalizeDate, hne, h]

theorem parseISO_empty : parseISO "" = none := by decide

theorem listLtChars_self (l : List Char) : listLtChars l l = false := by
  induction l with
  | nil => rfl
  | cons a as ih => simp [listLtChars, ih]

theorem jsStrLt_self (s : String) : jsStrLt s s = false :=
  listLtChars_self s.data

theorem part001_computeDays_same (s : String) (sp ep : Period) (hse : s ≠ "") :
    Part001.computeDays s s sp ep =
      some (if sp = Period.FULL ∨ ep = Period.FULL then 1
        else if sp = Period.AM ∧ ep = Period.PM then 1
        else if sp = Period.AM ∧ ep = Period.AM then 1 / 2
        else if sp = Period.PM ∧ ep = Period.PM then 1 / 2
        else 1) := by
  have hcond : ¬(s = "" ∨ s = "") := by
    rintro (h | h) <;> exact hse h
  simp only [Part001.computeDays, if_neg hcond, if_pos rfl, if_true]

theorem part001_computeDays_multi {s t : String} {f g : ℤ} (sp ep : Period)
    (hs : parseISO s = some f) (ht : parseISO t = some g) (hst : s ≠ t)
    (hse : s ≠ "") (hte : t ≠ "") :
    Part001.computeDays s t sp ep =
      some (((g - f + 1 : ℤ) : ℚ) - (if sp = Period.PM then 1 / 2 else 0) -
        (if ep = Period.AM then 1 / 2 else 0)) := by
  have hcond : ¬(s = "" ∨ t = "") := by
    rintro (h | h)
    · exact hse h
    · exact hte h
  simp only [Part001.computeDays, if_neg hcond, hs, ht, if_neg hst]
  cases sp <;> cases ep <;> simp

/-!
Claim theorems.
-/

theorem computeDays_multi_eq {s t : String} {f g : ℤ} (sp ep : Period)
    (hs : parseISO s = some f) (ht : parseISO t = some g)
    (hst : s ≠ t) (hte : t ≠ "") :
    computeDays s t sp ep =
      ((g - f + 1 : ℤ) : ℚ) - (if sp = Period.PM then 1 / 2 else 0) -
        (if ep = Period.AM then 1 / 2 else 0) := by
  have hse : s ≠ "" := by
    intro h
    rw [h, parseISO_empty] at hs
    exact Option.noConfusion hs
  simp only [computeDays, if_neg hse, if_neg hte, hs, ht, if_neg hst]
  cases sp <;> cases ep <;> simp

theorem computeDays_single_eq {s : String} {f : ℤ} (sp ep : Period)
    (hs : parseISO s = some f) :
    computeDays s s sp ep =
      if sp = Period.FULL ∨ ep = Period.FULL then 1
      else if sp = Period.AM ∧ ep = Period.PM then 1
      else if sp = Period.AM ∧ ep = Period.AM then 1 / 2
      else if sp = Period.PM ∧ ep = Period.PM then 1 / 2
      else 1 := by
  have hse : s ≠ "" := by
    intro h
    rw [h, parseISO_empty] at hs
    exact Option.noConfusion hs
  simp only [computeDays, if_neg hse, ite_self, hs]
  cases sp <;> cases ep <;> simp

/-- C1: for every multi-day span (second date strictly after the first)
and markers in `{FULL, AM, PM}`, `computeDays` returns the inclusive day
count `base = floor((dateTo - dateFrom) / 1 day) + 1` minus `0.5` for a
`PM` start and a further `0.5` for an `AM` end; in particular 2024-03-01
`PM` to 2024-03-05 `AM` gives `5 - 0.5 - 0.5 = 4`. -/
theorem computeDays_multiDay_spec :
    (∀ (s t : String) (f g : ℤ) (sp ep : Period),
      parseISO s = some f → parseISO t = some g → f < g →
      computeDays s t sp ep =
        ((g - f + 1 : ℤ) : ℚ) - (if sp = Period.PM then 1 / 2 else 0) -
          (if ep = Period.AM then 1 / 2 else 0)) ∧
    computeDays "2024-03-01" "2024-03-05" Period.PM Period.AM = 4 := by
  have main : ∀ (s t : String) (f g : ℤ) (sp ep : Period),
      parseISO s = some f → parseISO t = some g → f < g →
      computeDays s t sp ep =
        ((g - f + 1 : ℤ) : ℚ) - (if sp = Period.PM then 1 / 2 else 0) -
          (if ep = Period.AM then 1 / 2 else 0) := by
    intro s t f g sp ep hs ht hlt
    have hte : t ≠ "" := by
      intro h
      rw [h, parseISO_empty] at ht
      exact Option.noConfusion ht
    have hst : s ≠ t := by
      intro h
      rw [h, ht] at hs
      exact absurd (Option.some.inj hs) (by omega)
    exact computeDays_multi_eq sp ep hs ht hst hte
  refine ⟨main, ?_⟩
  have h4 := main "2024-03-01" "2024-03-05" 19783 19787 Period.PM Period.AM
    (by decide) (by decide) (by decide)
  rw [h4]
  norm_num

/-- Witness for C1 at a concrete pair of dates, discharging the
hypotheses of the universal part. -/
theorem computeDays_multiDay_spec_witness :
    computeDays "2024-03-01" "2024-03-02" Period.PM Period.FULL =
      ((19784 - 19783 + 1 : ℤ) : ℚ) - (if Period.PM = Period.PM then 1 / 2 else 0) -
        (if Period.FULL = Period.AM then 1 / 2 else 0) :=
  computeDays_multiDay_spec.1 "2024-03-01" "2024-03-02" 19783 19784 Period.PM Period.FULL
    (by decide) (by decide) (by decide)

/-- C2: for every single-day span (`dateFrom === dateTo`) with markers in
`{FULL, AM, PM}`, `computeDays` returns 1 when either marker is `FULL`,
1 for `AM`/`PM`, 0.5 for `AM`/`AM`, 0.5 for `PM`/`PM`, and 1 for the
remaining combination `PM`/`AM`. -/
theorem computeDays_singleDay_spec (s : String) (f : ℤ) (h : parseISO s = some f) :
    (∀ ep, computeDays s s Period.FULL ep = 1) ∧
    (∀ sp, computeDays s s sp Period.FULL = 1) ∧
    computeDays s s Period.AM Period.PM = 1 ∧
    computeDays s s Period.AM Period.AM = 1 / 2 ∧
    computeDays s s Period.PM Period.PM = 1 / 2 ∧
    computeDays s s Period.PM Period.AM = 1 := by
  refine ⟨fun ep => ?_, fun sp => ?_, ?_, ?_, ?_, ?_⟩ <;>
    rw [computeDays_single_eq _ _ h] <;> first
      | (cases ep <;> simp)
      | (cases sp <;> simp)
      | simp

/-- Witness for C2 at a concrete date. -/
theorem computeDays_singleDay_spec_witness :
    computeDays "2024-03-01" "2024-03-01" Period.AM Period.AM = 1 / 2 :=
  (computeDays_singleDay_spec "2024-03-01" 19783 (by decide)).2.2.2.1

/-- C6: on parseable dates in order (a strictly later end, or the very
same date string) `computeDays` returns a strictly positive multiple of
0.5, and it returns 0 when `dateFrom` is missing (falsy) or when either
given date fails to parse. -/
theorem half_step_pieces (z : ℤ) (p q : Prop) [Decidable p] [Decidable q] (h : 2 ≤ z) :
    ∃ k : ℕ, 0 < k ∧
      (z : ℚ) - (if p then 1 / 2 else 0) - (if q then 1 / 2 else 0) = (k : ℚ) / 2 := by
  by_cases hp : p <;> by_cases hq : q <;> simp [hp, hq]
  · refine ⟨(2 * z - 2).toNat, by omega, ?_⟩
    have hc : (((2 * z - 2).toNat : ℕ) : ℚ) = ((2 * z - 2 : ℤ) : ℚ) := by
      exact_mod_cast Int.toNat_of_nonneg (by omega : (0 : ℤ) ≤ 2 * z - 2)
    rw [hc]
    push_cast
    ring
  · refine ⟨(2 * z - 1).toNat, by omega, ?_⟩
    have hc : (((2 * z - 1).toNat : ℕ) : ℚ) = ((2 * z - 1 : ℤ) : ℚ) := by
      exact_mod_cast Int.toNat_of_nonneg (by omega : (0 : ℤ) ≤ 2 * z - 1)
    rw [hc]
    push_cast
    ring
  · refine ⟨(2 * z - 1).toNat, by omega, ?_⟩
    have hc : (((2 * z - 1).toNat : ℕ) : ℚ) = ((2 * z - 1 : ℤ) : ℚ) := by
      exact_mod_cast Int.toNat_of_nonneg (by omega : (0 : ℤ) ≤ 2 * z - 1)
    rw [hc]
    push_cast
    ring
  · refine ⟨(2 * z).toNat, by omega, ?_⟩
    have hc : (((2 * z).toNat : ℕ) : ℚ) = ((2 * z : ℤ) : ℚ) := by
      exact_mod_cast Int.toNat_of_nonneg (by omega : (0 : ℤ) ≤ 2 * z)
    rw [hc]
    push_cast
    ring

theorem computeDays_halfStep_serverjs :
    (∀ (s t : String) (f g : ℤ) (sp ep : Period),
      parseISO s = some f → parseISO t = some g → (f < g ∨ s = t) →
      ∃ k : ℕ, 0 < k ∧ computeDays s t sp ep = (k : ℚ) / 2) ∧
    (∀ t sp ep, computeDays "" t sp ep = 0) ∧
    (∀ s t sp ep, parseISO s = none → computeDays s t sp ep = 0) ∧
    (∀ s t sp ep, t ≠ "" → parseISO t = none → computeDays s t sp ep = 0) := by
  refine ⟨?_, ?_, ?_, ?_⟩
  · intro s t f g sp ep hs ht hord
    rcases hord with hlt | rfl
    · have hte : t ≠ "" := by
        intro h
        rw [h, parseISO_empty] at ht
        exact Option.noConfusion ht
      have hst : s ≠ t := by
        intro h
        rw [h, ht] at hs
        exact absurd (Option.some.inj hs) (by omega)
      rw [computeDays_multi_eq sp ep hs ht hst hte]
      exact half_step_pieces (g - f + 1) _ _ (by omega)
    · have hcases :
          (if sp = Period.FULL ∨ ep = Period.FULL then (1 : ℚ)
            else if sp = Period.AM ∧ ep = Period.PM then 1
            else if sp = Period.AM ∧ ep = Period.AM then 1 / 2
            else if sp = Period.PM ∧ ep = Period.PM then 1 / 2
            else 1) = 1 ∨
          (if sp = Period.FULL ∨ ep = Period.FULL then (1 : ℚ)
            else if sp = Period.AM ∧ ep = Period.PM then 1
            else if sp = Period.AM ∧ ep = Period.AM then 1 / 2
            else if sp = Period.PM ∧ ep = Period.PM then 1 / 2
            else 1) = 1 / 2 := by
        cases sp <;> cases ep <;> simp
      rcases hcases with hv | hv <;> rw [computeDays_single_eq sp ep hs, hv]
      · exact ⟨2, by norm_num, by norm_num⟩
      · exact ⟨1, by norm_num, by norm_num⟩
  · intro t sp ep
    simp [computeDays]
  · intro s t sp ep hs
    by_cases h0 : s = ""
    · simp [computeDays, h0]
    · simp only [computeDays, if_neg h0, hs]
  · intro s t sp ep hte ht
    by_cases h0 : s = ""
    · simp [computeDays, h0]
    · simp only [computeDays, if_neg h0, if_neg hte, ht]
      split <;> first | rfl | simp_all

/-- C6 counterexample: the `part_001` copy of `computeDays` (also cited
by the claim) has no `isNaN` guard. For the format-valid but
out-of-range date `2024-02-31` — which fails to parse (`NaN` in the
engine, `none` here) yet passes the `part_001` route's format regex —
it returns `NaN` (not 0) against a distinct second date, and 1 (not 0)
when both arguments are that same unparseable string, refuting the
universal zero-fallback at these inputs. -/
theorem computeDays_halfStep_cex :
    parseISO "2024-02-31" = none ∧
    Part001.computeDays "2024-02-31" "2024-03-05" Period.FULL Period.FULL = none ∧
    Part001.computeDays "2024-02-31" "2024-02-31" Period.AM Period.PM = some 1 :=
  ⟨by decide, by decide, by decide⟩

/-- C6 amended: the `server.js` copy of `computeDays` (with the `isNaN`
guard) satisfies the claim in full — on parseable dates in order the
result is a strictly positive multiple of 0.5, and it returns 0 when
`dateFrom` is missing or either given date fails to parse. The
`part_001` / `part_000` copy returns 0 only when either date is
MISSING; it keeps the positive-multiple guarantee on parseable ordered
dates, but on a nonempty unparseable date it returns `NaN` when the two
strings differ and a marker-table value (1 or 0.5, never 0) when they
are equal. -/
theorem computeDays_halfStep_amended :
    ((∀ (s t : String) (f g : ℤ) (sp ep : Period),
        parseISO s = some f → parseISO t = some g → (f < g ∨ s = t) →
        ∃ k : ℕ, 0 < k ∧ computeDays s t sp ep = (k : ℚ) / 2) ∧
      (∀ t sp ep, computeDays "" t sp ep = 0) ∧
      (∀ s t sp ep, parseISO s = none → computeDays s t sp ep = 0) ∧
      (∀ s t sp ep, t ≠ "" → parseISO t = none → computeDays s t sp ep = 0)) ∧
    ((∀ dTo sp ep, Part001.computeDays "" dTo sp ep = some 0) ∧
      (∀ dFrom sp ep, Part001.computeDays dFrom "" sp ep = some 0) ∧
      (∀ (s t : String) (f g : ℤ) (sp ep : Period),
        parseISO s = some f → parseISO t = some g → (f < g ∨ s = t) →
        ∃ k : ℕ, 0 < k ∧ Part001.computeDays s t sp ep = some ((k : ℚ) / 2)) ∧
      (∀ (s t : String) (sp ep : Period), s ≠ "" → t ≠ "" → s ≠ t →
        (parseISO s = none ∨ parseISO t = none) →
        Part001.computeDays s t sp ep = none) ∧
      (∀ (s : String) (sp ep : Period), s ≠ "" →
        Part001.computeDays s s sp ep = some 1 ∨
          Part001.computeDays s s sp ep = some (1 / 2))) := by
  refine ⟨computeDays_halfStep_serverjs, ?_, ?_, ?_, ?_, ?_⟩
  · intro dTo sp ep
    simp [Part001.computeDays]
  · intro dFrom sp ep
    simp [Part001.computeDays]
  · intro s t f g sp ep hs ht hord
    rcases hord with hlt | rfl
    · have hse : s ≠ "" := by
        intro h
        rw [h, parseISO_empty] at hs
        exact Option.noConfusion hs
      have hte : t ≠ "" := by
        intro h
        rw [h, parseISO_empty] at ht
        exact Option.noConfusion ht
      have hst : s ≠ t := by
        intro h
        rw [h, ht] at hs
        exact absurd (Option.some.inj hs) (by omega)
      rw [part001_computeDays_multi sp ep hs ht hst hse hte]
      obtain ⟨k, hk0, hkeq⟩ :=
        half_step_pieces (g - f + 1) (sp = Period.PM) (ep = Period.AM) (by omega)
      exact ⟨k, hk0, by rw [hkeq]⟩
    · have hse : s ≠ "" := by
        intro h
        rw [h, parseISO_empty] at hs
        exact Option.noConfusion hs
      rw [part001_computeDays_same s sp ep hse]
      have hcases :
          (if sp = Period.FULL ∨ ep = Period.FULL then (1 : ℚ)
            else if sp = Period.AM ∧ ep = Period.PM then 1
            else if sp = Period.AM ∧ ep = Period.AM then 1 / 2
            else if sp = Period.PM ∧ ep = Period.PM then 1 / 2
            else 1) = 1 ∨
          (if sp = Period.FULL ∨ ep = Period.FULL then (1 : ℚ)
            else if sp = Period.AM ∧ ep = Period.PM then 1
            else if sp = Period.AM ∧ ep = Period.AM then 1 / 2
            else if sp = Period.PM ∧ ep = Period.PM then 1 / 2
            else 1) = 1 / 2 := by
        cases sp <;> cases ep <;> simp
      rcases hcases with hv | hv
      · exact ⟨2, by norm_num, by rw [hv]; exact congrArg some (by norm_num)⟩
      · exact ⟨1, by norm_num, by rw [hv]; exact congrArg some (by norm_num)⟩
  · intro s t sp ep hse hte hst hnan
    have hcond : ¬(s = "" ∨ t = "") := by
      rintro (h | h)
      · exact hse h
      · exact hte h
    simp only [Part001.computeDays, if_neg hcond, if_neg hst]
    rcases hnan with h | h
    · simp [h]
    · rcases hps : parseISO s with _ | f
      · simp [hps]
      · simp [hps, h]
  · intro s sp ep hse
    rw [part001_computeDays_same s sp ep hse]
    have hcases :
        (if sp = Period.FULL ∨ ep = Period.FULL then (1 : ℚ)
          else if sp = Period.AM ∧ ep = Period.PM then 1
          else if sp = Period.AM ∧ ep = Period.AM then 1 / 2
          else if sp = Period.PM ∧ ep = Period.PM then 1 / 2
          else 1) = 1 ∨
        (if sp = Period.FULL ∨ ep = Period.FULL then (1 : ℚ)
          else if sp = Period.AM ∧ ep = Period.PM then 1
          else if sp = Period.AM ∧ ep = Period.AM then 1 / 2
          else if sp = Period.PM ∧ ep = Period.PM then 1 / 2
          else 1) = 1 / 2 := by
      cases sp <;> cases ep <;> simp
    rcases hcases with hv | hv
    · exact Or.inl (by rw [hv])
    · exact Or.inr (by rw [hv])

/-- Witness for C6, discharging the hypotheses of the amended theorem on
concrete dates for both embedded copies. -/
theorem computeDays_halfStep_amended_witness :
    (∃ k : ℕ, 0 < k ∧
      computeDays "2024-03-01" "2024-03-05" Period.PM Period.AM = (k : ℚ) / 2) ∧
    (∃ k : ℕ, 0 < k ∧
      Part001.computeDays "2024-03-01" "2024-03-05" Period.PM Period.AM =
        some ((k : ℚ) / 2)) ∧
    Part001.computeDays "2024-02-31" "2024-03-05" Period.FULL Period.PM = none :=
  ⟨computeDays_halfStep_amended.1.1 "2024-03-01" "2024-03-05" 19783 19787
      Period.PM Period.AM (by decide) (by decide) (Or.inl (by decide)),
    computeDays_halfStep_amended.2.2.2.1 "2024-03-01" "2024-03-05" 19783 19787
      Period.PM Period.AM (by decide) (by decide) (Or.inl (by decide)),
    computeDays_halfStep_amended.2.2.2.2.1 "2024-02-31" "2024-03-05" Period.FULL
      Period.PM (by decide) (by decide) (by decide) (Or.inl (by decide))⟩

/-- C10: `normalizeDate` is idempotent; a string already matching
`YYYY-MM-DD` is returned unchanged, a digit string matching
`DD/MM/YYYY` is rewritten to `YYYY-MM-DD`, and every other input
(the empty string included) is returned as given. -/
theorem normalizeDate_spec :
    (∀ s, normalizeDate (normalizeDate s) = normalizeDate s) ∧
    (∀ s, isISOChars s.data = true → normalizeDate s = s) ∧
    (∀ d1 d2 m1 m2 y1 y2 y3 y4 : Char,
      (d1.isDigit && d2.isDigit && m1.isDigit && m2.isDigit &&
        y1.isDigit && y2.isDigit && y3.isDigit && y4.isDigit) = true →
      normalizeDate (String.mk [d1, d2, '/', m1, m2, '/', y1, y2, y3, y4]) =
        String.mk [y1, y2, y3, y4, '-', m1, m2, '-', d1, d2]) ∧
    (∀ s, isISOChars s.data = false → frMatch s.data = none → normalizeDate s = s) := by
  have hother : ∀ s : String, isISOChars s.data = false → frMatch s.data = none →
      normalizeDate s = s := by
    intro s hiso hfr
    by_cases h0 : s.data = []
    · simp [normalizeDate, h0]
    · simp [normalizeDate, h0, hiso, hfr]
  refine ⟨?_, fun s h => normalizeDate_of_iso h, ?_, hother⟩
  · intro s
    by_cases h0 : s.data = []
    · simp [normalizeDate, h0]
    · by_cases h1 : isISOChars s.data = true
      · rw [normalizeDate_of_iso h1, normalizeDate_of_iso h1]
      · cases hfr : frMatch s.data with
        | none =>
          have he := hother s (by simpa using h1) hfr
          rw [he, he]
        | some r =>
          have h2 := frMatch_isISO hfr
          have he : normalizeDate s = String.mk r := by
            simp [normalizeDate, h0, h1, hfr]
          rw [he]
          exact normalizeDate_of_iso h2.1
  · intro d1 d2 m1 m2 y1 y2 y3 y4 h
    simp only [Bool.and_eq_true] at h
    obtain ⟨⟨⟨⟨⟨⟨⟨h1, h2⟩, h3⟩, h4⟩, h5⟩, h6⟩, h7⟩, h8⟩ := h
    have hiso : isISOChars [d1, d2, '/', m1, m2, '/', y1, y2, y3, y4] = false := by
      simp [isISOChars, h1, h2]
    have hfr : frMatch [d1, d2, '/', m1, m2, '/', y1, y2, y3, y4] =
        some [y1, y2, y3, y4, '-', m1, m2, '-', d1, d2] := by
      simp [frMatch, h1, h2, h3, h4, h5, h6, h7, h8]
    simp [normalizeDate, hiso, hfr]

/-- C3 counterexample: in the `server.js` Mongo variant (one of the two
handlers the claim refers to), validating a request that a first call
already moved to `sent` answers plain `ok` — the response type of this
variant has no `already` field at all — and attempts a second
notification mail; the claim asserts an `already` signal and no second
mail. -/
theorem validate_idempotent_cex :
    MongoV1.validate ((MongoV1.validate (some ⟨Status.pending, none, none⟩) true).1) true =
      (some ⟨Status.sent, none, none⟩, MongoV1.Resp.ok,
        [Ev.save, Ev.respond, Ev.mailAttempt]) ∧
    Ev.mailAttempt ∈
      (MongoV1.validate ((MongoV1.validate (some ⟨Status.pending, none, none⟩) true).1)
        true).2.2 :=
  ⟨rfl, by decide⟩

/-- C3 amended: on the `part_000` in-memory variant the claim holds —
any validate call on a record already in status `sent` returns success
with the `already` signal, leaves the stored record unchanged (in
particular `validated_at` is not overwritten) and attempts no mail; so
over a full pair of calls on a pending record, the first call mutates
the record exactly once with exactly one mail attempt and the second
call is the pure `already` answer. On the `server.js` Mongo variant a
second validate also leaves the stored record unchanged (the status is
re-saved as `sent`) but answers plain success without any `already`
signal and attempts a duplicate notification mail. -/
theorem validate_idempotent_amended :
    (∀ (r : Part000Mem.Rec) (mailOk : Bool) (now : Nat), r.status = Status.sent →
      Part000Mem.validate (some r) mailOk now = (some r, Part000Mem.Resp.okAlready, [])) ∧
    (∀ (r : Part000Mem.Rec) (now now2 : Nat) (mailOk2 : Bool),
      r.status = Status.pending →
      Part000Mem.validate (some r) true now =
        (some { r with status := Status.sent, validated_at := some now },
          Part000Mem.Resp.ok, [Ev.mailAttempt, Ev.save, Ev.respond]) ∧
      Part000Mem.validate
          (some { r with status := Status.sent, validated_at := some now }) mailOk2 now2 =
        (some { r with status := Status.sent, validated_at := some now },
          Part000Mem.Resp.okAlready, [])) ∧
    (∀ (r : MongoV1.Rec) (mailOk : Bool), r.status = Status.sent →
      MongoV1.validate (some r) mailOk =
        (some r, MongoV1.Resp.ok, [Ev.save, Ev.respond, Ev.mailAttempt])) := by
  refine ⟨?_, ?_, ?_⟩
  · intro r mailOk now h
    simp [Part000Mem.validate, h]
  · intro r now now2 mailOk2 h
    constructor
    · simp [Part000Mem.validate, h]
    · simp [Part000Mem.validate]
  · intro r mailOk h
    cases r with
    | mk st rr cr =>
      cases h
      rfl

/-- Witness for C3 at a concrete already-sent record. -/
theorem validate_idempotent_amended_witness :
    Part000Mem.validate (some ⟨Status.sent, some 1, none, none, "x@y.zz"⟩) true 2 =
      (some ⟨Status.sent, some 1, none, none, "x@y.zz"⟩, Part000Mem.Resp.okAlready, []) :=
  validate_idempotent_amended.1 ⟨Status.sent, some 1, none, none, "x@y.zz"⟩ true 2 rfl

/-- C4 counterexample: in the `server.js` Mongo variant, refusing a
request whose status is `sent` succeeds with `ok` and overwrites the
status, while the claim asserts an `InvalidTransition` failure with the
record unchanged. -/
theorem refuse_transition_cex :
    MongoV1.refuse (some ⟨Status.sent, none, none⟩) (some "occupied") =
      (some ⟨Status.refused, some "occupied", none⟩, MongoV1.Resp.ok) :=
  rfl

/-- C4 amended: neither cited handler examines the current status: on any
existing record — `pending`, `sent`, `refused` or `cancelled` alike —
the Mongo variant's refuse and cancel unconditionally overwrite the
status and reason and answer `ok`, and the `part_000` in-memory refuse
does the same whenever the record's applicant email passes its format
test and the decision mail sends. No `InvalidTransition` outcome exists
in the code. -/
theorem refuse_transition_amended :
    (∀ (r : MongoV1.Rec) (reason : Option String),
      MongoV1.refuse (some r) reason =
        (some { r with status := Status.refused, refuse_reason := some (jsStr reason) },
          MongoV1.Resp.ok)) ∧
    (∀ (r : MongoV1.Rec) (reason : Option String),
      MongoV1.cancel (some r) reason =
        (some { r with status := Status.cancelled, cancel_reason := some (jsStr reason) },
          MongoV1.Resp.ok)) ∧
    (∀ (r : Part000Mem.Rec) (reason : Option String) (now : Nat),
      isEmail r.applicant_email = true →
      Part000Mem.refuse (some r) reason true now =
        (some { r with
            status := Status.refused, decision_reason := jsTruthyOpt reason,
            decision_at := some now },
          Part000Mem.Resp.ok)) := by
  refine ⟨fun r reason => rfl, fun r reason => rfl, ?_⟩
  intro r reason now h
  have hne : ¬(r.applicant_email = "" ∨ isEmail r.applicant_email = false) := by
    rintro (he | he)
    · rw [he] at h
      exact absurd h (by decide)
    · rw [he] at h
      exact Bool.noConfusion h
  simp [Part000Mem.refuse, hne]

/-- Witness for C4 at a concrete already-sent record with a valid
applicant email. -/
theorem refuse_transition_amended_witness :
    Part000Mem.refuse (some ⟨Status.sent, some 1, none, none, "x@y.zz"⟩) (some "busy") true 7 =
      (some ⟨Status.refused, some 1, some 7, some "busy", "x@y.zz"⟩, Part000Mem.Resp.ok) := by
  have h := refuse_transition_amended.2.2 ⟨Status.sent, some 1, none, none, "x@y.zz"⟩
    (some "busy") 7 (by decide)
  exact h

/-- C5 counterexample: in the `part_000` Mongo variant (the second of the
two cited refuse handlers), refusing an existing pending request WITHOUT
a reason succeeds with `ok` and mutates the record to `refused` with an
empty stored reason, while the claim asserts a `ValidationError` with
the record unchanged. -/
theorem refuse_reason_cex :
    Part000Mongo2.refuse (some ⟨Status.pending, none⟩) none =
      (some ⟨Status.refused, some ""⟩, Part000Mongo2.Resp.ok) :=
  rfl

/-- C5 amended: on the `server.js` in-memory variant, refuse with a
missing or empty (or whitespace-only) reason answers the `Motif requis`
validation error and leaves the record entirely unchanged, whatever its
status; but on the `part_000` Mongo variant the reason is optional —
refuse without one succeeds, setting `status = "refused"` and an empty
`refuse_reason`. -/
theorem refuse_reason_amended :
    (∀ (r : ServerJsMem.RecFull) (reason : Option String) (mailOk : Bool) (now : Nat),
      jsTrim (jsStr reason) = "" →
      ServerJsMem.refuse (some r) reason mailOk now =
        (some r, ServerJsMem.Resp.reasonRequired)) ∧
    (∀ (r : Part000Mongo2.Rec) (reason : Option String),
      Part000Mongo2.refuse (some r) reason =
        (some { r with status := Status.refused, refuse_reason := some (jsStr reason) },
          Part000Mongo2.Resp.ok)) := by
  refine ⟨?_, fun r reason => rfl⟩
  intro r reason mailOk now h
  simp [ServerJsMem.refuse, h]

/-- Witness for C5: a pending record and an absent reason. -/
theorem refuse_reason_amended_witness :
    ServerJsMem.refuse (some (ServerJsMem.freshRec ServerJsMem.examplePayload)) none true 3 =
      (some (ServerJsMem.freshRec ServerJsMem.examplePayload),
        ServerJsMem.Resp.reasonRequired) :=
  refuse_reason_amended.1 (ServerJsMem.freshRec ServerJsMem.examplePayload) none true 3
    (by decide)

/-- C9 counterexample: in the `server.js` in-memory variant (the second
cited validate handler), the notification is `await`ed BEFORE the
mutation: on a send failure the record stays `pending` — not `sent` —
and the call answers a 500 error instead of success. -/
theorem validate_durable_cex :
    ServerJsMem.validate (some (ServerJsMem.freshRec ServerJsMem.examplePayload)) false 5 =
      (some (ServerJsMem.freshRec ServerJsMem.examplePayload), ServerJsMem.Resp.mailError,
        [Ev.mailAttempt, Ev.respond]) ∧
    (ServerJsMem.freshRec ServerJsMem.examplePayload).status = Status.pending :=
  ⟨rfl, rfl⟩

/-- C9 amended: on the `server.js` Mongo variant the claim holds — the
save precedes the response and the background mail attempt in the event
trace, and the outcome (stored status `sent`, success response) is
independent of whether the transport succeeds; on the `server.js`
in-memory variant the mail is sent before the mutation, so a send
failure leaves the record in its prior status and answers a 500 error,
and only a successful send commits `sent` / `validated_at`. -/
theorem validate_durable_amended :
    (∀ (r : MongoV1.Rec) (mailOk : Bool),
      MongoV1.validate (some r) mailOk =
        (some { r with status := Status.sent }, MongoV1.Resp.ok,
          [Ev.save, Ev.respond, Ev.mailAttempt])) ∧
    (∀ (r : ServerJsMem.RecFull) (now : Nat),
      ServerJsMem.validate (some r) false now =
        (some r, ServerJsMem.Resp.mailError, [Ev.mailAttempt, Ev.respond]) ∧
      ServerJsMem.validate (some r) true now =
        (some { r with status := Status.sent, validated_at := some now },
          ServerJsMem.Resp.ok, [Ev.mailAttempt, Ev.save, Ev.respond])) :=
  ⟨fun _ _ => rfl, fun _ _ => ⟨rfl, rfl⟩⟩

theorem normalizeRequestPayload_error (body : Body)
    (h : (ServerJsMem.normDateTo body ≠ "" ∧
        jsStrLt (ServerJsMem.normDateTo body) (ServerJsMem.normDateFrom body) = true) ∨
      (ServerJsMem.normDateFrom body = ServerJsMem.normDateTo body ∧
        ServerJsMem.normStartPeriod body = "PM" ∧
        ServerJsMem.normEndPeriod body = "AM")) :
    ∃ e, ServerJsMem.normalizeRequestPayload body = Except.error e := by
  unfold ServerJsMem.normalizeRequestPayload
  rcases hm1 : ServerJsMem.mustBeEmail ServerJsMem.VErr.applicantEmail body.applicantEmail
    with e1 | v1
  · exact ⟨e1, by simp [hm1, Bind.bind, Except.bind]⟩
  rcases hm2 : ServerJsMem.mustBeEmail ServerJsMem.VErr.managerEmail body.managerEmail
    with e2 | v2
  · exact ⟨e2, by simp [hm1, hm2, Bind.bind, Except.bind]⟩
  rcases hm3 : ServerJsMem.mustBeEmail ServerJsMem.VErr.hrEmail body.hrEmail
    with e3 | v3
  · exact ⟨e3, by simp [hm1, hm2, hm3, Bind.bind, Except.bind]⟩
  by_cases hdf : ServerJsMem.normDateFrom body = ""
  · exact ⟨ServerJsMem.VErr.dateFromMissing,
      by simp [hm1, hm2, hm3, hdf, Bind.bind, Except.bind]⟩
  rcases h with ⟨hne, hlt⟩ | ⟨heq, hsp, hep⟩
  · exact ⟨ServerJsMem.VErr.dateOrder,
      by simp [hm1, hm2, hm3, hdf, Bind.bind, Except.bind, Pure.pure, Except.pure,
        hne, hlt]⟩
  · have hTne : ServerJsMem.normDateTo body ≠ "" := heq ▸ hdf
    have hnotlt : jsStrLt (ServerJsMem.normDateTo body) (ServerJsMem.normDateFrom body)
        = false := by
      rw [heq, jsStrLt_self]
    exact ⟨ServerJsMem.VErr.sameDayPmAm,
      by simp [hm1, hm2, hm3, hdf, hTne, Bind.bind, Except.bind, Pure.pure, Except.pure,
        hnotlt, jsStrLt_self, heq, hsp, hep]⟩

/-- C7 counterexample: the `part_001` creation route (one of the claim's
cited validators) accepts a submission whose `dateTo` lies strictly
before `dateFrom`: it creates the record — with a negative computed
`days` of `-3` — and answers success, while the claim asserts a
`ValidationError` and no stored record. -/
theorem validator_date_guard_cex :
    Part001.postRequests []
        { fullName := some "Alice", entity := some "E", place := some "P",
          dateFrom := some "2024-03-05", dateTo := some "2024-03-01",
          managerEmail := some "m@x.yy", hrEmail := some "h@x.yy" } =
      ([⟨"Alice", "E", "2024-03-05", "2024-03-01", "FULL", "FULL", "P", "21B",
          "m@x.yy", "h@x.yy", -3, none, Status.pending, none⟩],
        Part001.Resp.created (-3)) := by
  have hdays : computeDays "2024-03-05" "2024-03-01" Period.FULL Period.FULL = -3 := by
    have h1 : parseISO "2024-03-01" = some 19783 := by decide
    have h5 : parseISO "2024-03-05" = some 19787 := by decide
    simp [computeDays, h1, h5, show ("2024-03-01" : String) ≠ "" from by decide,
      show ("2024-03-05" : String) ≠ "" from by decide,
      show ("2024-03-05" : String) ≠ "2024-03-01" from by decide]
  simp [Part001.postRequests, hdays, normalizeDate, isISOChars, jsStr, jsOr, jsTrim,
    jsToUpper, jsTruthyOpt, periodOfString,
    show isEmail "m@x.yy" = true from by decide,
    show isEmail "h@x.yy" = true from by decide]

/-- C7 amended: the `server.js` in-memory validator does reject — any
submission whose normalized `dateTo` is truthy and lexicographically
(equivalently, on canonical dates, chronologically) before `dateFrom`,
or equal to it with a `PM` start and `AM` end, is answered with a 400
validation error and nothing is stored; the `part_001` creation route
however performs no date-order and no same-day `PM`/`AM` check: any
submission passing its presence/format/enum/email checks is stored and
answered with success, whatever the order of its two dates. -/
theorem validator_date_guard_amended :
    (∀ (store : List ServerJsMem.RecFull) (body : Body),
      ((ServerJsMem.normDateTo body ≠ "" ∧
          jsStrLt (ServerJsMem.normDateTo body) (ServerJsMem.normDateFrom body) = true) ∨
        (ServerJsMem.normDateFrom body = ServerJsMem.normDateTo body ∧
          ServerJsMem.normStartPeriod body = "PM" ∧
          ServerJsMem.normEndPeriod body = "AM")) →
      ∃ e, ServerJsMem.postRequests store body =
        (store, ServerJsMem.PostResp.badRequest e)) ∧
    (∀ (reqs : List Part001.Item) (fn en pl dF dT me he : String),
      fn ≠ "" → en ≠ "" → pl ≠ "" →
      isISOChars dF.data = true → isISOChars dT.data = true →
      isEmail me = true → isEmail he = true →
      Part001.postRequests reqs
          { fullName := some fn, entity := some en, place := some pl,
            dateFrom := some dF, dateTo := some dT,
            managerEmail := some me, hrEmail := some he } =
        (⟨jsTrim fn, en, dF, dT, "FULL", "FULL", pl, "21B", me, he,
            computeDays dF dT Period.FULL Period.FULL, none, Status.pending, none⟩ :: reqs,
          Part001.Resp.created (computeDays dF dT Period.FULL Period.FULL))) := by
  constructor
  · intro store body h
    obtain ⟨e, he⟩ := normalizeRequestPayload_error body h
    exact ⟨e, by simp [ServerJsMem.postRequests, he]⟩
  · intro reqs fn en pl dF dT me he hfn hen hpl hdF hdT hme hhe
    have hdFne : dF ≠ "" := by
      intro h
      rw [h] at hdF
      exact absurd hdF (by decide)
    have hdTne : dT ≠ "" := by
      intro h
      rw [h] at hdT
      exact absurd hdT (by decide)
    have hnF : normalizeDate dF = dF := normalizeDate_of_iso hdF
    have hnT : normalizeDate dT = dT := normalizeDate_of_iso hdT
    simp [Part001.postRequests, jsStr, jsOr, hdFne, hdTne, hnF, hnT, hfn, hen, hpl,
      hdF, hdT, hme, hhe, jsTruthyOpt, periodOfString,
      show jsToUpper "FULL" = "FULL" from by decide,
      show jsToUpper "21B" = "21B" from by decide]

/-- Witness for C7: a concrete reversed-date submission rejected by the
`server.js` in-memory validator with the store unchanged, and a concrete
in-order submission accepted by the `part_001` route. -/
theorem validator_date_guard_amended_witness :
    (∃ e, ServerJsMem.postRequests []
        { fullName := some "Alice", applicantEmail := some "a@b.cd",
          entity := some "E", place := some "P",
          dateFrom := some "2024-03-05", dateTo := some "2024-03-01",
          managerEmail := some "m@x.yy", hrEmail := some "h@x.yy" } =
      ([], ServerJsMem.PostResp.badRequest e)) ∧
    Part001.postRequests []
        { fullName := some "Bob", entity := some "E", place := some "P",
          dateFrom := some "2024-03-01", dateTo := some "2024-03-02",
          managerEmail := some "m@x.yy", hrEmail := some "h@x.yy" } =
      ([⟨"Bob", "E", "2024-03-01", "2024-03-02", "FULL", "FULL", "P", "21B",
          "m@x.yy", "h@x.yy", computeDays "2024-03-01" "2024-03-02" Period.FULL Period.FULL,
          none, Status.pending, none⟩],
        Part001.Resp.created
          (computeDays "2024-03-01" "2024-03-02" Period.FULL Period.FULL)) :=
  ⟨validator_date_guard_amended.1 []
      { fullName := some "Alice", applicantEmail := some "a@b.cd",
        entity := some "E", place := some "P",
        dateFrom := some "2024-03-05", dateTo := some "2024-03-01",
        managerEmail := some "m@x.yy", hrEmail := some "h@x.yy" }
      (Or.inl (by decide)),
    validator_date_guard_amended.2 [] "Bob" "E" "P" "2024-03-01" "2024-03-02"
      "m@x.yy" "h@x.yy" (by decide) (by decide) (by decide) (by decide) (by decide)
      (by decide) (by decide)⟩

/-- C8 counterexample: in the `server.js` in-memory variant, refusing a
fresh pending record and then validating the refused record (the
handlers never check the status) yields a reachable stored record with
BOTH `validated_at` and `decision_at` set, violating the claimed
invariant. -/
theorem terminal_timestamp_cex :
    (ServerJsMem.validate
        ((ServerJsMem.refuse (some (ServerJsMem.freshRec ServerJsMem.examplePayload))
          (some "x") true 1).1) true 2).1 =
      some ⟨Status.sent, some 2, some 1, some "x", ServerJsMem.examplePayload⟩ ∧
    ¬ ServerJsMem.inv ⟨Status.sent, some 2, some 1, some "x", ServerJsMem.examplePayload⟩ :=
  ⟨rfl, by decide⟩

/-- C8 amended: creation zeroes every terminal field, and each single
transition applied to a PENDING record preserves the invariant — at most
one terminal timestamp, with the status determining which fields are
populated; but because no handler checks the current status, sequences
that apply a second transition of the other kind to a non-pending record
(refuse then validate) escape the invariant, as the counterexample
shows. -/
theorem terminal_timestamp_amended :
    (∀ p, ServerJsMem.inv (ServerJsMem.freshRec p)) ∧
    (∀ (r r' : ServerJsMem.RecFull) (mailOk : Bool) (now : Nat),
      ServerJsMem.inv r → r.status = Status.pending →
      (ServerJsMem.validate (some r) mailOk now).1 = some r' → ServerJsMem.inv r') ∧
    (∀ (r r' : ServerJsMem.RecFull) (reason : Option String) (mailOk : Bool) (now : Nat),
      ServerJsMem.inv r → r.status = Status.pending →
      (ServerJsMem.refuse (some r) reason mailOk now).1 = some r' → ServerJsMem.inv r') ∧
    (∀ (r r' : ServerJsMem.RecFull) (reason : Option String) (mailOk : Bool) (now : Nat),
      ServerJsMem.inv r → r.status = Status.pending →
      (ServerJsMem.cancel (some r) reason mailOk now).1 = some r' → ServerJsMem.inv r') := by
  refine ⟨?_, ?_, ?_, ?_⟩
  · intro p
    simp [ServerJsMem.inv, ServerJsMem.freshRec]
  · intro r r' mailOk now hinv hpend heq
    obtain ⟨h1, h2, h3⟩ := hinv.2.1 hpend
    cases mailOk with
    | true =>
      simp only [ServerJsMem.validate, if_pos] at heq
      obtain rfl := Option.some.inj heq
      simp [ServerJsMem.inv, h1, h2, h3]
    | false =>
      simp only [ServerJsMem.validate] at heq
      obtain rfl := Option.some.inj heq
      exact hinv
  · intro r r' reason mailOk now hinv hpend heq
    obtain ⟨h1, h2, h3⟩ := hinv.2.1 hpend
    by_cases hre : jsTrim (jsStr reason) = ""
    · simp only [ServerJsMem.refuse, hre, if_pos] at heq
      obtain rfl := Option.some.inj heq
      exact hinv
    · cases mailOk with
      | true =>
        simp only [ServerJsMem.refuse, hre, if_neg, if_pos] at heq
        obtain rfl := Option.some.inj heq
        simp [ServerJsMem.inv, h1, h2, h3]
      | false =>
        simp only [ServerJsMem.refuse, hre] at heq
        obtain rfl := Option.some.inj heq
        exact hinv
  · intro r r' reason mailOk now hinv hpend heq
    obtain ⟨h1, h2, h3⟩ := hinv.2.1 hpend
    by_cases hre : jsTrim (jsStr reason) = ""
    · simp only [ServerJsMem.cancel, hre, if_pos] at heq
      obtain rfl := Option.some.inj heq
      exact hinv
    · cases mailOk with
      | true =>
        simp only [ServerJsMem.cancel, hre, if_neg, if_pos] at heq
        obtain rfl := Option.some.inj heq
        simp [ServerJsMem.inv, h1, h2, h3]
      | false =>
        simp only [ServerJsMem.cancel, hre] at heq
        obtain rfl := Option.some.inj heq
        exact hinv

/-- Witness for C8: one validate step from a concrete fresh pending
record lands in an invariant-satisfying state. -/
theorem terminal_timestamp_amended_witness :
    ServerJsMem.inv ⟨Status.sent, some 7, none, none, ServerJsMem.examplePayload⟩ :=
  terminal_timestamp_amended.2.1 (ServerJsMem.freshRec ServerJsMem.examplePayload)
    ⟨Status.sent, some 7, none, none, ServerJsMem.examplePayload⟩ true 7
    (by decide) rfl rfl

/-- Witness for C10 at concrete inputs. -/
theorem normalizeDate_spec_witness :
    normalizeDate "2024-03-01" = "2024-03-01" ∧
    normalizeDate (String.mk ['0', '1', '/', '0', '3', '/', '2', '0', '2', '4']) =
      String.mk ['2', '0', '2', '4', '-', '0', '3', '-', '0', '1'] ∧
    normalizeDate "banana" = "banana" :=
  ⟨normalizeDate_spec.2.1 "2024-03-01" (by decide),
    normalizeDate_spec.2.2.1 '0' '1' '0' '3' '2' '0' '2' '4' (by decide),
    normalizeDate_spec.2.2.2 "banana" (by decide) (by decide)⟩
